import Mathlib

/-!
Verification of the directory tools of the gemini-code repository
(`src/gemini_cli/tools/directory_tools.py` and `src/gemini_cli/tools/tree_tool.py`).

The host is modelled as a POSIX platform (`IS_WINDOWS = False`, `os.path.sep = "/"`),
so the Unix branches of the tools are embedded.  External effects are modelled
explicitly: the process runner (`subprocess.run`) is an oracle of type
`CommandSpec → Except PyExc ExecResult` (a raised Python exception is an
`Except.error`), and the filesystem is a finite association list from absolute
path strings to entry kinds.  Python string builtins used by the tools
(`str.split`, `str.splitlines`, `str.strip`, `str.lower`, `str.startswith`,
substring membership, `os.path.normpath`, `os.path.expanduser`, `os.path.abspath`)
are embedded over `List Char`; `str.strip`/`str.lower` are modelled on their
ASCII behaviour, which agrees with Python on the ASCII strings involved.
-/

namespace GeminiCLI

/-- Contiguous-sublist test: some suffix of the haystack starts with the needle. -/
def containsSubList (needle : List Char) : List Char → Bool
  | [] => needle.isEmpty
  | c :: rest => List.isPrefixOf needle (c :: rest) || containsSubList needle rest

/-- Model of Python `needle in hay` for strings. -/
def pyIn (needle hay : String) : Bool := containsSubList needle.data hay.data

/-- Model of Python `s.startswith(pre)`. -/
def pyStartsWith (s pre : String) : Bool := List.isPrefixOf pre.data s.data

/-- Model of Python `s[n:]` for a nonnegative index. -/
def pyDrop (s : String) (n : Nat) : String := String.mk (s.data.drop n)

/-- Model of Python `s[a:b]` for nonnegative indices. -/
def pySlice (s : String) (a b : Nat) : String := String.mk ((s.data.drop a).take (b - a))

/-- ASCII model of the character class stripped by Python `str.strip()`. -/
def isPySpace (c : Char) : Bool :=
  c = ' ' || c = '\t' || c = '\n' || c = '\r' || c = '\x0b' || c = '\x0c'

/-- Model of Python `s.strip()` (ASCII whitespace). -/
def pyStrip (s : String) : String :=
  String.mk (((s.data.dropWhile isPySpace).reverse.dropWhile isPySpace).reverse)

/-- ASCII model of Python `s.lower()`. -/
def pyLower (s : String) : String := String.mk (s.data.map Char.toLower)

/-- Auxiliary recursion for `pySplitSlash`. -/
def splitSlashAux : List Char → List Char → List String
  | [], acc => [String.mk acc.reverse]
  | c :: cs, acc =>
    if c = '/' then String.mk acc.reverse :: splitSlashAux cs []
    else splitSlashAux cs (c :: acc)

/-- Model of Python `s.split("/")` (`os.path.sep` on the modelled POSIX host). -/
def pySplitSlash (s : String) : List String := splitSlashAux s.data []

/-- The guard of `CreateDirectoryTool.execute`:
`".." in dir_path.split(os.path.sep)` (directory_tools.py line 32). -/
def hasParentSegment (p : String) : Bool := (pySplitSlash p).contains ".."

/-- Model of Python `"sep".join(xs)` (`str.join`). -/
def joinWith (sep : String) : List String → String
  | [] => ""
  | a :: rest => rest.foldl (fun acc x => acc ++ sep ++ x) a

/-- Characters treated as line boundaries by Python `str.splitlines`. -/
def isLineBoundary (c : Char) : Bool :=
  c = '\n' || c = '\r' || c = '\x0b' || c = '\x0c' || c = '\x1c' ||
  c = '\x1d' || c = '\x1e' || c = '\x85' || c = '\u2028' || c = '\u2029'

/-- Left-to-right replacement of each `"\r\n"` pair by a single `'\n'`.
Python's `splitlines` treats `"\r\n"` as one boundary; after this pass every
remaining boundary is a single character. -/
def normCRLF : List Char → List Char
  | [] => []
  | [c] => [c]
  | a :: b :: rest =>
    if a = '\r' ∧ b = '\n' then '\n' :: normCRLF rest
    else a :: normCRLF (b :: rest)

/-- Line splitter over single-character boundaries; `acc` is the current line
reversed. -/
def splitlinesAux : List Char → List Char → List String
  | [], acc => if acc = [] then [] else [String.mk acc.reverse]
  | c :: rest, acc =>
    if isLineBoundary c then String.mk acc.reverse :: splitlinesAux rest []
    else splitlinesAux rest (c :: acc)

/-- Model of Python `s.splitlines()`: `"\r\n"` counts once, then each
boundary character ends a line; a trailing boundary adds no empty line. -/
def splitlines (s : String) : List String := splitlinesAux (normCRLF s.data) []

/-- Model of posixpath.normpath's component loop; `acc` holds `new_comps`
reversed (its head is the most recently appended component). -/
def normCompsAux (initialSlashes : Nat) : List String → List String → List String
  | [], acc => acc.reverse
  | comp :: rest, acc =>
    if comp = "" ∨ comp = "." then normCompsAux initialSlashes rest acc
    else if comp ≠ ".." ∨ (initialSlashes = 0 ∧ acc = []) ∨ (acc ≠ [] ∧ acc.head? = some "..") then
      normCompsAux initialSlashes rest (comp :: acc)
    else if acc ≠ [] then normCompsAux initialSlashes rest acc.tail
    else normCompsAux initialSlashes rest acc

/-- Model of Python `os.path.normpath` on the POSIX host. -/
def normpath (path : String) : String :=
  if path = "" then "."
  else
    let initialSlashes : Nat :=
      if pyStartsWith path "//" ∧ ¬ pyStartsWith path "///" then 2
      else if pyStartsWith path "/" then 1
      else 0
    let comps := normCompsAux initialSlashes (pySplitSlash path) []
    let joined := String.mk (List.replicate initialSlashes '/') ++ joinWith "/" comps
    if joined = "" then "." else joined

/-- Model of Python `s.rstrip("/")`. -/
def rstripSlash (s : String) : String :=
  String.mk (s.data.reverse.dropWhile (fun c => c = '/')).reverse

/-- First index `≥ start` of character `c` in the listed characters; the list
is the string's characters from position `start` on. -/
def findCharFrom : List Char → Char → Nat → Option Nat
  | [], _, _ => none
  | a :: as, c, idx => if a = c then some idx else findCharFrom as c (idx + 1)

/-- The environment the tools run in: the current working directory
(`os.getcwd()`), the `HOME` environment variable (assumed set), and the
`pwd` user database as username/home-directory pairs. -/
structure Env where
  cwd : String
  home : String
  users : List (String × String)
deriving DecidableEq, Repr

/-- Lookup in the modelled `pwd` database (`pwd.getpwnam`). -/
def lookupUserHome : List (String × String) → String → Option String
  | [], _ => none
  | (n, h) :: rest, name => if n = name then some h else lookupUserHome rest name

/-- Model of Python `os.path.expanduser` on the POSIX host, with `HOME` set. -/
def expanduser (env : Env) (path : String) : String :=
  if pyStartsWith path "~" = false then path
  else
    let i := match findCharFrom (path.data.drop 1) '/' 1 with
             | some j => j
             | none => path.data.length
    if i = 1 then
      let userhome := rstripSlash env.home
      let res := userhome ++ pyDrop path i
      if res = "" then "/" else res
    else
      match lookupUserHome env.users (pySlice path 1 i) with
      | none => path
      | some h =>
        let userhome := rstripSlash h
        let res := userhome ++ pyDrop path i
        if res = "" then "/" else res

/-- Model of Python `s.endswith("/")`, used by `os.path.join`. -/
def endsWithSlash (s : String) : Bool := s.data.getLast? == some '/'

/-- Model of posixpath.join on two arguments, the second relative or absolute. -/
def pyJoin2 (a b : String) : String :=
  if pyStartsWith b "/" then b
  else if a = "" ∨ endsWithSlash a then a ++ b
  else a ++ "/" ++ b

/-- Model of Python `os.path.abspath` on the POSIX host. -/
def abspath (env : Env) (p : String) : String :=
  if pyStartsWith p "/" then normpath p else normpath (pyJoin2 env.cwd p)

/-- Decidable test for an "Error"-prefixed result string
(Python `s.startswith("Error")`). -/
def startsWithError (s : String) : Bool := List.isPrefixOf "Error".data s.data

/-- The spec's CommandSpec value: executable, argument vector, and whether the
host shell wraps the invocation (`shell=IS_WINDOWS`; always `false` on the
modelled POSIX host). -/
structure CommandSpec where
  executable : String
  arguments : List String
  useShellWrapper : Bool
deriving DecidableEq, Repr

/-- The Python exceptions that can cross the modelled library calls: the
classes the tools name in `except` clauses, plus a catch-all constructor for
any other `Exception`; the payload is `str(e)`.  `FileNotFoundError` is a
subclass of `OSError`. -/
inductive PyExc where
  | fileNotFoundError (msg : String)
  | timeoutExpired (msg : String)
  | osError (msg : String)
  | other (msg : String)
deriving DecidableEq, Repr

/-- Payload `str(e)` of a modelled exception. -/
def PyExc.msg : PyExc → String
  | .fileNotFoundError m => m
  | .timeoutExpired m => m
  | .osError m => m
  | .other m => m

/-- Which modelled exceptions an `except OSError` clause catches
(`FileNotFoundError` is an `OSError` subclass). -/
def PyExc.isOSError : PyExc → Bool
  | .fileNotFoundError _ => true
  | .osError _ => true
  | _ => false

/-- The completed-process value of `subprocess.run(..., check=False)`:
exit code plus captured text stdout and stderr. -/
structure ExecResult where
  returncode : Int
  stdout : String
  stderr : String
deriving DecidableEq, Repr

/-- The process runner is an oracle: it either completes with an
`ExecResult` or raises a Python exception. -/
abbrev Runner := CommandSpec → Except PyExc ExecResult

/-- The handler chain of a `try`/`except` statement: the first clause whose
class matches the raised exception produces the result; an unmatched
exception is re-raised. -/
def runHandlers (hs : List (PyExc → Option String)) (e : PyExc) : Except PyExc String :=
  match hs.findSome? (fun h => h e) with
  | some s => Except.ok s
  | none => Except.error e

/-- Output truncation shared by `ls` (100 lines) and `tree` (200 lines):
`output = stdout.strip()`, and if `len(output.splitlines()) > maxLines` the
first `maxLines` lines are kept and a literal marker line is appended. -/
def truncateOutput (maxLines : Nat) (raw : String) : String :=
  let output := pyStrip raw
  if (splitlines output).length > maxLines then
    joinWith "\n" ((splitlines output).take maxLines) ++ "\n... (output truncated)"
  else output

/-- The pre-run phase of `LsTool.execute` (directory_tools.py lines 70-87):
on a truthy path, normalize it and reject a normalized path starting with
`".."`; otherwise build the Unix command `ls -lA <target>`.  Returns either
the early error string or the target together with the command. -/
def lsPlan (path : Option String) : Sum String (String × CommandSpec) :=
  let p := match path with
           | none => ""
           | some s => s
  if p ≠ "" then
    let target := normpath p
    if pyStartsWith target ".." then
      Sum.inl ("Error: Invalid path '" ++ p ++ "'. Cannot access parent directories.")
    else Sum.inr (target, ⟨"ls", ["-lA", target], false⟩)
  else Sum.inr (".", ⟨"ls", ["-lA", "."], false⟩)

/-- The branch of `LsTool.execute` on a completed process
(directory_tools.py lines 100-118). -/
def lsFormatCompleted (target : String) (proc : ExecResult) : String :=
  if proc.returncode = 0 then truncateOutput 100 proc.stdout
  else
    let stderrLower := pyLower proc.stderr
    if pyIn "no such file or directory" stderrLower || pyIn "cannot find the path" stderrLower then
      "Error: Directory not found: '" ++ target ++ "'"
    else
      "Error executing directory listing command (Code: " ++ toString proc.returncode ++ "): " ++
        (if proc.stderr ≠ "" then pyStrip proc.stderr else "(No stderr)")

/-- The `except` clauses of `LsTool.execute` (directory_tools.py lines
120-130), in source order. -/
def lsHandlers (target : String) : List (PyExc → Option String) :=
  [fun e => match e with
    | .fileNotFoundError _ =>
      some "Error: 'ls' command not found. Please ensure it is installed and in the system's PATH."
    | _ => none,
   fun e => match e with
    | .timeoutExpired _ =>
      some ("Error: Directory listing timed out for path '" ++ target ++ "'.")
    | _ => none,
   fun e => some ("An unexpected error occurred while executing directory listing: " ++ e.msg)]

/-- `LsTool.execute` over a process-runner oracle: a returned string is
`Except.ok`; an exception escaping the tool would be `Except.error`. -/
def lsExecuteE (run : Runner) (path : Option String) : Except PyExc String :=
  match lsPlan path with
  | Sum.inl err => Except.ok err
  | Sum.inr (target, spec) =>
    match run spec with
    | Except.ok proc => Except.ok (lsFormatCompleted target proc)
    | Except.error e => runHandlers (lsHandlers target) e

/-- `DEFAULT_TREE_DEPTH` (tree_tool.py line 17). -/
def DEFAULT_TREE_DEPTH : Int := 3

/-- `MAX_TREE_DEPTH` (tree_tool.py line 18). -/
def MAX_TREE_DEPTH : Int := 10

/-- Depth clamping of `TreeTool.execute` (tree_tool.py lines 44-48). -/
def treeDepthLimit (depth : Option Int) : Int :=
  match depth with
  | none => DEFAULT_TREE_DEPTH
  | some d => max 1 (min d MAX_TREE_DEPTH)

/-- Target selection of `TreeTool.execute` (tree_tool.py lines 51-54): a
truthy path is used verbatim, with no validation. -/
def treeTarget (path : Option String) : String :=
  match path with
  | none => "."
  | some p => if p = "" then "." else p

/-- The Unix command built by `TreeTool.execute` (tree_tool.py line 65):
`tree -L <depth_limit> <target>`. -/
def treePlan (path : Option String) (depth : Option Int) : CommandSpec :=
  ⟨"tree", ["-L", toString (treeDepthLimit depth), treeTarget path], false⟩

/-- The branch of `TreeTool.execute` on a completed process (tree_tool.py
lines 79-93); no message of this branch mentions the target path. -/
def treeFormatCompleted (_target : String) (proc : ExecResult) : String :=
  if proc.returncode = 0 then truncateOutput 200 proc.stdout
  else if proc.returncode = 127 ∨ pyIn "command not found" (pyLower proc.stderr) = true then
    "Error: 'tree' command not found. Please ensure it is installed and in the system's PATH."
  else
    "Error executing tree command (Code: " ++ toString proc.returncode ++ "): " ++
      (if proc.stderr ≠ "" then pyStrip proc.stderr else "(No stderr)")

/-- The `except` clauses of `TreeTool.execute` (tree_tool.py lines 95-107)
on the POSIX host, in source order. -/
def treeHandlers (target : String) : List (PyExc → Option String) :=
  [fun e => match e with
    | .fileNotFoundError _ =>
      some "Error: 'tree' command not found. Please install it using your package manager (e.g., 'apt-get install tree' on Debian/Ubuntu)."
    | _ => none,
   fun e => match e with
    | .timeoutExpired _ =>
      some ("Error: Tree command timed out for path '" ++ target ++ "'. The directory might be too large or complex.")
    | _ => none,
   fun e => some ("An unexpected error occurred while executing tree: " ++ e.msg)]

/-- `TreeTool.execute` over a process-runner oracle. -/
def treeExecuteE (run : Runner) (path : Option String) (depth : Option Int) : Except PyExc String :=
  match run (treePlan path depth) with
  | Except.ok proc => Except.ok (treeFormatCompleted (treeTarget path) proc)
  | Except.error e => runHandlers (treeHandlers (treeTarget path)) e

/-- Kind of a filesystem entry. -/
inductive Entry where
  | dir
  | file
deriving DecidableEq, Repr

/-- The filesystem as a finite association list from absolute path strings to
entries; earlier pairs shadow later ones. -/
abbrev FS := List (String × Entry)

/-- Lookup of a path in the modelled filesystem. -/
def fsLookup : FS → String → Option Entry
  | [], _ => none
  | (q, e) :: rest, p => if q = p then some e else fsLookup rest p

/-- Model of `os.path.exists`. -/
def fsPathExists (fs : FS) (p : String) : Bool := (fsLookup fs p).isSome

/-- Model of `os.path.isdir`. -/
def fsIsDir (fs : FS) (p : String) : Bool := fsLookup fs p == some Entry.dir

/-- Model of posixpath.split: split off the final component after the last
slash, stripping trailing slashes from a head that is not all slashes. -/
def pySplitPath (p : String) : String × String :=
  let i := match findCharFrom p.data.reverse '/' 0 with
           | some k => p.data.length - k
           | none => 0
  let head := String.mk (p.data.take i)
  let tail := String.mk (p.data.drop i)
  if head ≠ "" ∧ head.data.any (fun c => c ≠ '/') then (rstripSlash head, tail)
  else (head, tail)

/-- The head/tail split of `os.makedirs`: `head, tail = path.split(name)`,
re-split once when the tail is empty (trailing slash). -/
def makedirsHt (name : String) : String × String :=
  let ht := pySplitPath name
  if ht.2 = "" then pySplitPath ht.1 else ht

/-- Model of `os.makedirs(name, exist_ok=True)` with explicit recursion
fuel: create the missing ancestor chain, then the target directory.  The
fuel `name.length + 1` used by `makedirs` always suffices, as each recursive
call shortens the path. -/
def makedirsFuel : Nat → FS → String → FS
  | 0, fs, _ => fs
  | Nat.succ fuel, fs, name =>
    let ht := makedirsHt name
    let fs1 := if ht.1 ≠ "" ∧ ht.2 ≠ "" ∧ fsPathExists fs ht.1 = false
               then makedirsFuel fuel fs ht.1 else fs
    if fsPathExists fs1 name then fs1 else (name, Entry.dir) :: fs1

/-- The ancestor-creation step of one `os.makedirs` unfolding (the
filesystem before the final `mkdir(name)`). -/
def makedirsAncestors (fuel : Nat) (fs : FS) (name : String) : FS :=
  if (makedirsHt name).1 ≠ "" ∧ (makedirsHt name).2 ≠ "" ∧
      fsPathExists fs (makedirsHt name).1 = false
  then makedirsFuel fuel fs (makedirsHt name).1 else fs

/-- Model of `os.makedirs(name, exist_ok=True)`. -/
def makedirs (fs : FS) (name : String) : FS := makedirsFuel (name.data.length + 1) fs name

/-- The resolved target of `CreateDirectoryTool.execute`
(directory_tools.py line 36): `os.path.abspath(os.path.expanduser(dir_path))`. -/
def createDirTarget (env : Env) (dirPath : String) : String :=
  abspath env (expanduser env dirPath)

/-- The `except` clauses of `CreateDirectoryTool.execute` (directory_tools.py
lines 51-56): `OSError` first, then a catch-all; both produce the same
message shape. -/
def createDirHandlers : List (PyExc → Option String) :=
  [fun e => if e.isOSError then some ("Error creating directory: " ++ e.msg) else none,
   fun e => some ("Error creating directory: " ++ e.msg)]

/-- The `try` body of `CreateDirectoryTool.execute` (directory_tools.py
lines 30-49) over the modelled filesystem.  `osExc` is the oracle for the
`os.*` calls: `none` means they run normally, `some e` means the first such
call raises `e` (before mutating the filesystem).  The result pairs the
returned string with the filesystem after the call. -/
def createDirBody (env : Env) (fs : FS) (osExc : Option PyExc) (dirPath : String) :
    Except PyExc (String × FS) :=
  if hasParentSegment dirPath then
    Except.ok ("Error: Invalid path '" ++ dirPath ++ "'. Cannot access parent directories.", fs)
  else
    match osExc with
    | some e => Except.error e
    | none =>
      let target := createDirTarget env dirPath
      if fsPathExists fs target then
        if fsIsDir fs target then Except.ok ("Directory already exists: " ++ dirPath, fs)
        else Except.ok ("Error: Path exists but is not a directory: " ++ dirPath, fs)
      else Except.ok ("Successfully created directory: " ++ dirPath, makedirs fs target)

/-- `CreateDirectoryTool.execute` (directory_tools.py lines 20-56): the
`try` body wrapped in its `except` clauses. -/
def createDirE (env : Env) (fs : FS) (osExc : Option PyExc) (dirPath : String) :
    Except PyExc (String × FS) :=
  match createDirBody env fs osExc dirPath with
  | Except.ok r => Except.ok r
  | Except.error e =>
    match createDirHandlers.findSome? (fun h => h e) with
    | some s => Except.ok (s, fs)
    | none => Except.error e

/-! Helper lemmas about the modelled Python string builtins. -/

lemma data_mk (l : List Char) : (String.mk l).data = l := rfl

lemma mk_data (s : String) : String.mk s.data = s := rfl

lemma splitlinesAux_lineFree (l : List Char) :
    ∀ acc : List Char, (∀ c ∈ acc, isLineBoundary c = false) →
    ∀ x ∈ splitlinesAux l acc, ∀ c ∈ x.data, isLineBoundary c = false := by
  induction l with
  | nil =>
    intro acc hacc x hx c hc
    simp only [splitlinesAux] at hx
    by_cases ha : acc = []
    · rw [if_pos ha] at hx
      simp at hx
    · rw [if_neg ha] at hx
      simp only [List.mem_singleton] at hx
      subst hx
      rw [data_mk] at hc
      exact hacc c (List.mem_reverse.mp hc)
  | cons a rest ih =>
    intro acc hacc x hx c hc
    simp only [splitlinesAux] at hx
    by_cases hb : isLineBoundary a = true
    · rw [if_pos hb] at hx
      rcases List.mem_cons.mp hx with hx | hx
      · subst hx
        rw [data_mk] at hc
        exact hacc c (List.mem_reverse.mp hc)
      · exact ih [] (by simp) x hx c hc
    · rw [if_neg hb] at hx
      refine ih (a :: acc) ?_ x hx c hc
      intro c' hc'
      rcases List.mem_cons.mp hc' with h | h
      · subst h; exact Bool.eq_false_iff.mpr hb
      · exact hacc c' h

lemma splitlinesAux_of_lineFree (l : List Char) :
    ∀ acc : List Char, (∀ c ∈ l, isLineBoundary c = false) →
    splitlinesAux l acc =
      if acc.reverse ++ l = [] then [] else [String.mk (acc.reverse ++ l)] := by
  induction l with
  | nil =>
    intro acc _
    simp only [splitlinesAux, List.append_nil]
    by_cases h : acc = []
    · subst h; simp
    · rw [if_neg h, if_neg (by simpa using h)]
  | cons a rest ih =>
    intro acc h
    have hb : isLineBoundary a = false := h a (by simp)
    have hstep : splitlinesAux (a :: rest) acc = splitlinesAux rest (a :: acc) := by
      simp only [splitlinesAux]
      rw [if_neg (by simp [hb])]
    rw [hstep]
    have hres := ih (a :: acc) (fun c hc => h c (by simp [hc]))
    rw [hres]
    have harr : (a :: acc).reverse ++ rest = acc.reverse ++ a :: rest := by
      simp
    rw [harr]

lemma splitlinesAux_append_nl (l : List Char) :
    ∀ (acc rest : List Char), (∀ c ∈ l, isLineBoundary c = false) →
    splitlinesAux (l ++ '\n' :: rest) acc =
      String.mk (acc.reverse ++ l) :: splitlinesAux rest [] := by
  induction l with
  | nil =>
    intro acc rest _
    simp only [List.nil_append, splitlinesAux]
    rw [if_pos (by decide)]
    simp
  | cons a l ih =>
    intro acc rest h
    have hb : isLineBoundary a = false := h a (by simp)
    have hstep : splitlinesAux ((a :: l) ++ '\n' :: rest) acc =
        splitlinesAux (l ++ '\n' :: rest) (a :: acc) := by
      simp only [List.cons_append, splitlinesAux]
      rw [if_neg (by simp [hb])]
      rfl
    rw [hstep]
    have hres := ih (a :: acc) rest (fun c hc => h c (by simp [hc]))
    rw [hres]
    have harr : (a :: acc).reverse ++ l = acc.reverse ++ a :: l := by
      simp
    rw [harr]

lemma normCRLF_of_no_cr (l : List Char) (h : ∀ c ∈ l, c ≠ '\r') : normCRLF l = l := by
  induction l with
  | nil => rfl
  | cons a rest ih =>
    have ha : a ≠ '\r' := h a (by simp)
    have ih' : normCRLF rest = rest := ih (fun c hc => h c (by simp [hc]))
    cases rest with
    | nil => rfl
    | cons b rest2 =>
      show normCRLF (a :: b :: rest2) = a :: b :: rest2
      simp only [normCRLF]
      rw [if_neg (by simp [ha])]
      rw [ih']

lemma foldl_append_sep (sep : String) (t : List String) :
    ∀ x y : String,
      t.foldl (fun acc z => acc ++ sep ++ z) (x ++ y) =
        x ++ t.foldl (fun acc z => acc ++ sep ++ z) y := by
  induction t with
  | nil => intro x y; rfl
  | cons z t ih =>
    intro x y
    simp only [List.foldl_cons]
    have harr : x ++ y ++ sep ++ z = x ++ (y ++ sep ++ z) := by
      rw [String.append_assoc, String.append_assoc, String.append_assoc]
    rw [harr]
    exact ih x (y ++ sep ++ z)

lemma joinWith_cons_cons (sep a b : String) (t : List String) :
    joinWith sep (a :: b :: t) = a ++ sep ++ joinWith sep (b :: t) := by
  show (b :: t).foldl (fun acc z => acc ++ sep ++ z) a = _
  simp only [List.foldl_cons]
  exact foldl_append_sep sep t (a ++ sep) b

lemma joinWith_concat (sep : String) (T : List String) (m : String) (h : T ≠ []) :
    joinWith sep (T ++ [m]) = joinWith sep T ++ sep ++ m := by
  induction T with
  | nil => cases h rfl
  | cons a T ih =>
    cases T with
    | nil => rfl
    | cons b T2 =>
      have hstep : (a :: b :: T2) ++ [m] = a :: ((b :: T2) ++ [m]) := rfl
      rw [hstep]
      have h1 : joinWith sep (a :: (b :: T2 ++ [m])) =
          a ++ sep ++ joinWith sep (b :: T2 ++ [m]) :=
        joinWith_cons_cons sep a b (T2 ++ [m])
      rw [h1]
      rw [ih (by simp)]
      rw [joinWith_cons_cons sep a b T2]
      simp [String.append_assoc]

lemma mem_joinWith_nl (L : List String) (c : Char) :
    c ∈ (joinWith "\n" L).data → c = '\n' ∨ ∃ x ∈ L, c ∈ x.data := by
  induction L with
  | nil => intro h; simp [joinWith] at h
  | cons a t ih =>
    cases t with
    | nil =>
      intro h
      right
      exact ⟨a, by simp, h⟩
    | cons b t2 =>
      intro h
      rw [joinWith_cons_cons] at h
      simp only [String.data_append, List.mem_append] at h
      rcases h with (h | h) | h
      · right; exact ⟨a, by simp, h⟩
      · left; simpa using h
      · rcases ih h with h | ⟨x, hx, hc⟩
        · left; exact h
        · right; exact ⟨x, by simp [hx], hc⟩

lemma splitlinesAux_join (m : String) (hm : m.data ≠ [])
    (hmf : ∀ c ∈ m.data, isLineBoundary c = false) :
    ∀ L : List String, (∀ x ∈ L, ∀ c ∈ x.data, isLineBoundary c = false) →
    splitlinesAux (joinWith "\n" (L ++ [m])).data [] = L ++ [m] := by
  intro L
  induction L with
  | nil =>
    intro _
    show splitlinesAux m.data [] = [m]
    rw [splitlinesAux_of_lineFree m.data [] hmf]
    rw [if_neg (by simpa using hm)]
    simp [mk_data]
  | cons a L ih =>
    intro hL
    have hstep : (a :: L) ++ [m] = a :: (L ++ [m]) := rfl
    rw [hstep]
    have hcons : ∃ b t, L ++ [m] = b :: t := by
      cases L with
      | nil => exact ⟨m, [], rfl⟩
      | cons x xs => exact ⟨x, xs ++ [m], rfl⟩
    rcases hcons with ⟨b, t, hbt⟩
    rw [hbt, joinWith_cons_cons]
    have hdata : (a ++ "\n" ++ joinWith "\n" (b :: t)).data =
        a.data ++ '\n' :: (joinWith "\n" (b :: t)).data := by
      simp [String.data_append]
    rw [hdata]
    rw [splitlinesAux_append_nl a.data [] (joinWith "\n" (b :: t)).data
      (hL a (by simp))]
    rw [← hbt]
    rw [ih (fun x hx => hL x (by simp [hx]))]
    simp [mk_data]

lemma splitlines_joinWith (L : List String) (m : String)
    (hL : ∀ x ∈ L, ∀ c ∈ x.data, isLineBoundary c = false)
    (hm : m.data ≠ []) (hmf : ∀ c ∈ m.data, isLineBoundary c = false) :
    splitlines (joinWith "\n" (L ++ [m])) = L ++ [m] := by
  have hnocr : ∀ c ∈ (joinWith "\n" (L ++ [m])).data, c ≠ '\r' := by
    intro c hc hceq
    subst hceq
    rcases mem_joinWith_nl (L ++ [m]) '\r' hc with h | ⟨x, hx, hcx⟩
    · exact absurd h (by decide)
    · rcases List.mem_append.mp hx with hx | hx
      · have := hL x hx '\r' hcx
        simp [isLineBoundary] at this
      · have hxm : x = m := by simpa using hx
        subst hxm
        have := hmf '\r' hcx
        simp [isLineBoundary] at this
  unfold splitlines
  rw [normCRLF_of_no_cr _ hnocr]
  exact splitlinesAux_join m hm hmf L hL

lemma splitlines_lineFree (s : String) :
    ∀ x ∈ splitlines s, ∀ c ∈ x.data, isLineBoundary c = false := by
  intro x hx
  exact splitlinesAux_lineFree (normCRLF s.data) [] (by simp) x hx

/-- Full characterization of the output sanitizer: over the budget, the
result's lines are exactly the first `maxLines` stripped-output lines plus
the literal marker line; at or under the budget, the stripped output is
returned unchanged. -/
lemma truncateOutput_spec (n : Nat) (s : String) (hn : 0 < n) :
    ((splitlines (pyStrip s)).length > n →
      splitlines (truncateOutput n s) =
        (splitlines (pyStrip s)).take n ++ ["... (output truncated)"]) ∧
    ((splitlines (pyStrip s)).length ≤ n → truncateOutput n s = pyStrip s) := by
  have hunfold : truncateOutput n s =
      if (splitlines (pyStrip s)).length > n then
        joinWith "\n" ((splitlines (pyStrip s)).take n) ++ "\n... (output truncated)"
      else pyStrip s := rfl
  constructor
  · intro hgt
    rw [hunfold]
    rw [if_pos hgt]
    have hmarker : ("\n... (output truncated)" : String) =
        "\n" ++ "... (output truncated)" := rfl
    rw [hmarker]
    rw [← String.append_assoc]
    have htake : (splitlines (pyStrip s)).take n ≠ [] := by
      have hlen : ((splitlines (pyStrip s)).take n).length = n := by
        rw [List.length_take]
        omega
      intro hcon
      rw [hcon] at hlen
      simp at hlen
      omega
    rw [← joinWith_concat "\n" _ _ htake]
    refine splitlines_joinWith _ _ ?_ (by decide) (by decide)
    intro x hx
    exact splitlines_lineFree (pyStrip s) x (List.mem_of_mem_take hx)
  · intro hle
    rw [hunfold]
    have hnot : ¬ ((splitlines (pyStrip s)).length > n) := Nat.not_lt.mpr hle
    rw [if_neg hnot]

/-! Helper lemmas about the modelled filesystem and `os.makedirs`. -/

lemma makedirsFuel_succ (fuel : Nat) (fs : FS) (name : String) :
    makedirsFuel (Nat.succ fuel) fs name =
      if fsPathExists (makedirsAncestors fuel fs name) name
      then makedirsAncestors fuel fs name
      else (name, Entry.dir) :: makedirsAncestors fuel fs name := rfl

lemma makedirsFuel_lookup (f : Nat) : ∀ (fs : FS) (h q : String),
    fsLookup (makedirsFuel f fs h) q = fsLookup fs q ∨
    fsLookup (makedirsFuel f fs h) q = some Entry.dir := by
  induction f with
  | zero => intro fs h q; left; rfl
  | succ f ih =>
    intro fs h q
    have hanc : fsLookup (makedirsAncestors f fs h) q = fsLookup fs q ∨
        fsLookup (makedirsAncestors f fs h) q = some Entry.dir := by
      unfold makedirsAncestors
      by_cases hc : (makedirsHt h).1 ≠ "" ∧ (makedirsHt h).2 ≠ "" ∧
          fsPathExists fs (makedirsHt h).1 = false
      · rw [if_pos hc]
        exact ih fs (makedirsHt h).1 q
      · rw [if_neg hc]
        left
        rfl
    rw [makedirsFuel_succ]
    by_cases hex : fsPathExists (makedirsAncestors f fs h) h = true
    · rw [if_pos hex]
      exact hanc
    · rw [if_neg hex]
      by_cases hq : h = q
      · right
        simp [fsLookup, hq]
      · have hcons : fsLookup ((h, Entry.dir) :: makedirsAncestors f fs h) q =
            fsLookup (makedirsAncestors f fs h) q := by
          simp [fsLookup, hq]
        rw [hcons]
        exact hanc

lemma makedirs_lookup_self (fs : FS) (t : String) (h : fsPathExists fs t = false) :
    fsLookup (makedirs fs t) t = some Entry.dir := by
  unfold makedirs
  rw [makedirsFuel_succ]
  by_cases hex : fsPathExists (makedirsAncestors t.data.length fs t) t = true
  · rw [if_pos hex]
    have hanc : fsLookup (makedirsAncestors t.data.length fs t) t = fsLookup fs t ∨
        fsLookup (makedirsAncestors t.data.length fs t) t = some Entry.dir := by
      unfold makedirsAncestors
      by_cases hc : (makedirsHt t).1 ≠ "" ∧ (makedirsHt t).2 ≠ "" ∧
          fsPathExists fs (makedirsHt t).1 = false
      · rw [if_pos hc]
        exact makedirsFuel_lookup t.data.length fs (makedirsHt t).1 t
      · rw [if_neg hc]
        left
        rfl
    rcases hanc with hanc | hanc
    · exfalso
      have : fsPathExists fs t = true := by
        unfold fsPathExists at hex ⊢
        rw [← hanc]
        exact hex
      rw [this] at h
      cases h
    · exact hanc
  · rw [if_neg hex]
    simp [fsLookup]

/-! Helper lemmas about `expanduser` and `abspath` on `~/`-prefixed paths. -/

lemma rstripSlash_head (s : String) (hs : s.data.head? = some '/') :
    (rstripSlash s).data = [] ∨ (rstripSlash s).data.head? = some '/' := by
  obtain ⟨u, hu⟩ := List.dropWhile_suffix (l := s.data.reverse) (fun c => decide (c = '/'))
  have hdata : (rstripSlash s).data =
      (s.data.reverse.dropWhile (fun c => decide (c = '/'))).reverse := rfl
  have hsplit : s.data =
      (s.data.reverse.dropWhile (fun c => decide (c = '/'))).reverse ++ u.reverse := by
    have h2 := congrArg List.reverse hu
    simpa [List.reverse_append] using h2.symm
  cases hrev : (s.data.reverse.dropWhile (fun c => decide (c = '/'))).reverse with
  | nil =>
    left
    rw [hdata, hrev]
  | cons c t =>
    right
    rw [hdata, hrev]
    rw [hsplit, hrev] at hs
    simpa using hs

lemma pyStartsWith_slash_iff (s : String) :
    pyStartsWith s "/" = true ↔ s.data.head? = some '/' := by
  unfold pyStartsWith
  cases hd : s.data with
  | nil => simp [List.isPrefixOf]
  | cons c cs =>
    simp [List.isPrefixOf]
    constructor
    · intro h; exact h.symm
    · intro h; exact h.symm

lemma expanduser_tilde_slash (env : Env) (p : String) (t : List Char)
    (hp : p.data = '~' :: '/' :: t) :
    expanduser env p = rstripSlash env.home ++ pyDrop p 1 := by
  have hps : p = String.mk ('~' :: '/' :: t) := String.ext hp
  subst hps
  have hne : rstripSlash env.home ++ pyDrop (String.mk ('~' :: '/' :: t)) 1 ≠ "" := by
    intro he
    have hd := congrArg String.data he
    rw [String.data_append] at hd
    simp [pyDrop] at hd
  show (if rstripSlash env.home ++ pyDrop (String.mk ('~' :: '/' :: t)) 1 = "" then "/"
        else rstripSlash env.home ++ pyDrop (String.mk ('~' :: '/' :: t)) 1) =
      rstripSlash env.home ++ pyDrop (String.mk ('~' :: '/' :: t)) 1
  rw [if_neg hne]

lemma expanduser_tilde_abs (env : Env) (p : String) (t : List Char)
    (hp : p.data = '~' :: '/' :: t) (hhome : pyStartsWith env.home "/" = true) :
    pyStartsWith (expanduser env p) "/" = true := by
  rw [expanduser_tilde_slash env p t hp]
  rw [pyStartsWith_slash_iff]
  rw [String.data_append]
  have hdropd : (pyDrop p 1).data = '/' :: t := by
    unfold pyDrop
    rw [data_mk, hp]
    rfl
  rw [hdropd]
  have hh : env.home.data.head? = some '/' := (pyStartsWith_slash_iff env.home).mp hhome
  rcases rstripSlash_head env.home hh with h | h
  · rw [h]
    rfl
  · cases hd : (rstripSlash env.home).data with
    | nil => rfl
    | cons c cs =>
      rw [hd] at h
      simp only [List.head?_cons, Option.some.injEq] at h
      subst h
      rfl

/-- The resolved target of `create_directory` on a `~/`-prefixed path is
determined by the home directory alone: the working directory plays no
role, because the expanded path is absolute. -/
lemma createDirTarget_tilde (cwd home : String) (users : List (String × String))
    (p : String) (t : List Char) (hp : p.data = '~' :: '/' :: t)
    (hhome : pyStartsWith home "/" = true) :
    createDirTarget ⟨cwd, home, users⟩ p = normpath (rstripSlash home ++ pyDrop p 1) := by
  unfold createDirTarget abspath
  have hexp : expanduser ⟨cwd, home, users⟩ p = rstripSlash home ++ pyDrop p 1 :=
    expanduser_tilde_slash ⟨cwd, home, users⟩ p t hp
  rw [hexp]
  have habs : pyStartsWith (rstripSlash home ++ pyDrop p 1) "/" = true := by
    have h := expanduser_tilde_abs ⟨cwd, home, users⟩ p t hp hhome
    rw [hexp] at h
    exact h
  rw [if_pos habs]

/-! Claim theorems. -/

/-- C1, counterexample: the input path `"a/../b"` contains a
parent-directory segment, yet `ls.execute` does not return an error — it
normalizes the path to `"b"`, runs the external command, and returns its
stdout (two runners giving different stdout yield different results, so the
command is invoked). -/
theorem C1_counterexample :
    hasParentSegment "a/../b" = true ∧
    lsExecuteE (fun _ => Except.ok ⟨0, "hello", ""⟩) (some "a/../b") = Except.ok "hello" ∧
    lsExecuteE (fun _ => Except.ok ⟨0, "other", ""⟩) (some "a/../b") = Except.ok "other" :=
  ⟨by decide, rfl, rfl⟩

/-- C1, amended: `create_directory.execute` rejects every path containing a
`..` segment, returning the invalid-path error with the filesystem
untouched (it never runs an external command); `ls.execute` rejects exactly
the paths whose normalized form starts with `".."`, returning the
invalid-path error without invoking the external command (the result is
independent of the runner). -/
theorem C1_guard (env : Env) (fs : FS) (osExc : Option PyExc) (p : String)
    (run1 run2 : Runner) (q : String)
    (hcp : hasParentSegment p = true)
    (hq : q ≠ "") (hqn : pyStartsWith (normpath q) ".." = true) :
    createDirE env fs osExc p =
      Except.ok ("Error: Invalid path '" ++ p ++ "'. Cannot access parent directories.", fs) ∧
    lsExecuteE run1 (some q) =
      Except.ok ("Error: Invalid path '" ++ q ++ "'. Cannot access parent directories.") ∧
    lsExecuteE run1 (some q) = lsExecuteE run2 (some q) := by
  have hls : ∀ run : Runner, lsExecuteE run (some q) =
      Except.ok ("Error: Invalid path '" ++ q ++ "'. Cannot access parent directories.") := by
    intro run
    unfold lsExecuteE lsPlan
    rw [if_pos hq, if_pos hqn]
  refine ⟨?_, hls run1, by rw [hls run1, hls run2]⟩
  unfold createDirE createDirBody
  rw [if_pos hcp]

/-- C1, witness: the amended guard behaviour at the concrete paths `"../a"`
(create) and `"../b"` (ls). -/
theorem C1_guard_witness :
    createDirE ⟨"/w", "/h", []⟩ [] none "../a" =
      Except.ok ("Error: Invalid path '../a'. Cannot access parent directories.", []) ∧
    lsExecuteE (fun _ => Except.ok ⟨0, "x", ""⟩) (some "../b") =
      Except.ok ("Error: Invalid path '../b'. Cannot access parent directories.") ∧
    lsExecuteE (fun _ => Except.ok ⟨0, "x", ""⟩) (some "../b") =
      lsExecuteE (fun _ => Except.error (PyExc.other "e")) (some "../b") :=
  C1_guard ⟨"/w", "/h", []⟩ [] none "../a"
    (fun _ => Except.ok ⟨0, "x", ""⟩) (fun _ => Except.error (PyExc.other "e")) "../b"
    (by decide) (by decide) (by decide)

/-- C2, counterexample: `tree.execute` applies no path guard — with the
parent-escaping path `"../up"` it builds the command
`tree -L 3 ../up` and returns the process stdout instead of an error. -/
theorem C2_counterexample :
    treePlan (some "../up") none = ⟨"tree", ["-L", "3", "../up"], false⟩ ∧
    treeExecuteE (fun _ => Except.ok ⟨0, "tree-out", ""⟩) (some "../up") none =
      Except.ok "tree-out" :=
  ⟨by decide, rfl⟩

/-- C2, amended: `tree.execute` performs no path validation: every path
containing a `..` segment is passed verbatim to the external `tree`
command, the process-invoking branch is always reached, and on success the
process output is returned. -/
theorem C2_no_guard (p : String) (d : Option Int) (out : String)
    (hcp : hasParentSegment p = true) :
    treePlan (some p) d = ⟨"tree", ["-L", toString (treeDepthLimit d), p], false⟩ ∧
    treeExecuteE (fun _ => Except.ok ⟨0, out, ""⟩) (some p) d =
      Except.ok (truncateOutput 200 out) := by
  have hne : p ≠ "" := by
    intro he
    rw [he] at hcp
    exact absurd hcp (by decide)
  have htarget : treeTarget (some p) = p := by
    show (if p = "" then "." else p) = p
    rw [if_neg hne]
  constructor
  · unfold treePlan
    rw [htarget]
  · unfold treeExecuteE
    simp [treeFormatCompleted]

/-- C2, witness: the amended no-guard behaviour at the concrete path
`"../up"`. -/
theorem C2_no_guard_witness :
    treePlan (some "../up") (some 5) = ⟨"tree", ["-L", toString (treeDepthLimit (some 5)), "../up"], false⟩ ∧
    treeExecuteE (fun _ => Except.ok ⟨0, "line", ""⟩) (some "../up") (some 5) =
      Except.ok (truncateOutput 200 "line") :=
  C2_no_guard "../up" (some 5) "line" (by decide)

/-- C5: the Unix `tree` command is invoked with depth limit
`max(1, min(depth, 10))` for every integer depth argument — depth 0 yields
1 and depth 999 yields 10 — and an unspecified depth yields the default 3. -/
theorem C5_depth_clamp (p : Option String) (d : Int) :
    treePlan p (some d) = ⟨"tree", ["-L", toString (max 1 (min d 10)), treeTarget p], false⟩ ∧
    treePlan p none = ⟨"tree", ["-L", "3", treeTarget p], false⟩ ∧
    treeDepthLimit (some 0) = 1 ∧ treeDepthLimit (some 999) = 10 :=
  ⟨rfl, rfl, by decide, by decide⟩

/-- C3: every invocation of `create_directory.execute`, `ls.execute` and
`tree.execute` returns exactly one string (`Except.ok`) — for every input
and every behaviour of the modelled library calls, no exception escapes the
tool's public entry point, because the final `except` clause of each tool
catches every `Exception`. -/
theorem C3_total (env : Env) (fs : FS) (osExc : Option PyExc) (dp : String)
    (runL : Runner) (pathL : Option String)
    (runT : Runner) (pT : Option String) (dT : Option Int) :
    (∃ r, createDirE env fs osExc dp = Except.ok r) ∧
    (∃ s, lsExecuteE runL pathL = Except.ok s) ∧
    (∃ s, treeExecuteE runT pT dT = Except.ok s) := by
  refine ⟨?_, ?_, ?_⟩
  · cases hb : createDirBody env fs osExc dp with
    | ok r => exact ⟨r, by simp [createDirE, hb]⟩
    | error e =>
      have hh : ∃ s, createDirHandlers.findSome? (fun h => h e) = some s := by
        cases e <;>
          simp [createDirHandlers, List.findSome?, PyExc.isOSError, PyExc.msg]
      rcases hh with ⟨s, hs⟩
      exact ⟨(s, fs), by simp [createDirE, hb, hs]⟩
  · cases hp : lsPlan pathL with
    | inl err => exact ⟨err, by simp [lsExecuteE, hp]⟩
    | inr ts =>
      obtain ⟨target, spec⟩ := ts
      cases hr : runL spec with
      | ok proc => exact ⟨lsFormatCompleted target proc, by simp [lsExecuteE, hp, hr]⟩
      | error e =>
        have hh : ∃ s, (lsHandlers target).findSome? (fun h => h e) = some s := by
          cases e <;> simp [lsHandlers, List.findSome?, PyExc.msg]
        rcases hh with ⟨s, hs⟩
        exact ⟨s, by simp [lsExecuteE, hp, hr, runHandlers, hs]⟩
  · cases hr : runT (treePlan pT dT) with
    | ok proc =>
      exact ⟨treeFormatCompleted (treeTarget pT) proc, by simp [treeExecuteE, hr]⟩
    | error e =>
      have hh : ∃ s, (treeHandlers (treeTarget pT)).findSome? (fun h => h e) = some s := by
        cases e <;> simp [treeHandlers, List.findSome?, PyExc.msg]
      rcases hh with ⟨s, hs⟩
      exact ⟨s, by simp [treeExecuteE, hr, runHandlers, hs]⟩

/-- C4: on a zero exit code both listing tools return
`truncate(stdout)`: the stdout is stripped of leading/trailing whitespace,
and when the stripped output has more lines than the budget (100 for ls,
200 for tree) the result's lines are exactly the first 100 (resp. 200)
lines followed by the single literal marker line
`"... (output truncated)"`; output at or under the budget is returned
unmodified after stripping. -/
theorem C4_sanitizer (proc : ExecResult) (target s : String)
    (h0 : proc.returncode = 0) :
    lsFormatCompleted target proc = truncateOutput 100 proc.stdout ∧
    treeFormatCompleted target proc = truncateOutput 200 proc.stdout ∧
    ((splitlines (pyStrip s)).length > 100 →
      splitlines (truncateOutput 100 s) =
        (splitlines (pyStrip s)).take 100 ++ ["... (output truncated)"]) ∧
    ((splitlines (pyStrip s)).length ≤ 100 → truncateOutput 100 s = pyStrip s) ∧
    ((splitlines (pyStrip s)).length > 200 →
      splitlines (truncateOutput 200 s) =
        (splitlines (pyStrip s)).take 200 ++ ["... (output truncated)"]) ∧
    ((splitlines (pyStrip s)).length ≤ 200 → truncateOutput 200 s = pyStrip s) := by
  refine ⟨?_, ?_, (truncateOutput_spec 100 s (by norm_num)).1,
    (truncateOutput_spec 100 s (by norm_num)).2,
    (truncateOutput_spec 200 s (by norm_num)).1,
    (truncateOutput_spec 200 s (by norm_num)).2⟩
  · unfold lsFormatCompleted
    rw [if_pos h0]
  · unfold treeFormatCompleted
    rw [if_pos h0]

/-- A 102-line synthetic stdout used to witness the over-budget branch. -/
def sampleLongOutput : String := joinWith "\n" (List.replicate 102 "x")

set_option maxRecDepth 40000 in
/-- C4, witness: the sanitizer at concrete outputs — a stripped two-line
output under budget, and a 102-line output truncated to 100 lines plus the
marker. -/
theorem C4_sanitizer_witness :
    lsFormatCompleted "." ⟨0, " a \nb", ""⟩ = truncateOutput 100 " a \nb" ∧
    treeFormatCompleted "." ⟨0, " a \nb", ""⟩ = truncateOutput 200 " a \nb" ∧
    splitlines (truncateOutput 100 sampleLongOutput) =
      (splitlines (pyStrip sampleLongOutput)).take 100 ++ ["... (output truncated)"] ∧
    truncateOutput 100 "a\nb" = pyStrip "a\nb" :=
  ⟨(C4_sanitizer ⟨0, " a \nb", ""⟩ "." "a\nb" rfl).1,
   (C4_sanitizer ⟨0, " a \nb", ""⟩ "." "a\nb" rfl).2.1,
   (C4_sanitizer ⟨0, " a \nb", ""⟩ "." sampleLongOutput rfl).2.2.1 (by decide),
   (C4_sanitizer ⟨0, " a \nb", ""⟩ "." "a\nb" rfl).2.2.2.1 (by decide)⟩

/-- C6, counterexample: on a non-zero exit whose stderr contains
"no such file or directory", `tree.execute` returns the generic
non-zero-exit message, not `"Error: Directory not found: 'x'"` — the tree
tool has no not-found-path classification branch. -/
theorem C6_counterexample :
    pyIn "no such file or directory" (pyLower "tree: x: No such file or directory") = true ∧
    treeExecuteE (fun _ => Except.ok ⟨1, "", "tree: x: No such file or directory"⟩)
        (some "x") none =
      Except.ok "Error executing tree command (Code: 1): tree: x: No such file or directory" ∧
    ("Error executing tree command (Code: 1): tree: x: No such file or directory" ≠
      "Error: Directory not found: 'x'") :=
  ⟨by decide, rfl, by decide⟩

/-- C6, amended: only `ls.execute` classifies a non-zero exit whose stderr
contains a not-found marker ("no such file or directory" or "cannot find
the path", case-insensitively) as `"Error: Directory not found: '<path>'"`;
`tree.execute` has no such branch and returns the generic non-zero-exit
message whenever it is not the command-not-found case. -/
theorem C6_classification (run : Runner) (path : Option String)
    (target : String) (spec : CommandSpec) (proc : ExecResult)
    (runT : Runner) (pT : Option String) (dT : Option Int) (procT : ExecResult)
    (hplan : lsPlan path = Sum.inr (target, spec))
    (hrun : run spec = Except.ok proc)
    (hcode : proc.returncode ≠ 0)
    (hmark : (pyIn "no such file or directory" (pyLower proc.stderr) ||
        pyIn "cannot find the path" (pyLower proc.stderr)) = true)
    (hrunT : runT (treePlan pT dT) = Except.ok procT)
    (hcodeT : procT.returncode ≠ 0)
    (hmarkT : (pyIn "no such file or directory" (pyLower procT.stderr) ||
        pyIn "cannot find the path" (pyLower procT.stderr)) = true)
    (h127 : procT.returncode ≠ 127)
    (hnfT : pyIn "command not found" (pyLower procT.stderr) = false) :
    lsExecuteE run path = Except.ok ("Error: Directory not found: '" ++ target ++ "'") ∧
    treeExecuteE runT pT dT =
      Except.ok ("Error executing tree command (Code: " ++ toString procT.returncode ++ "): " ++
        (if procT.stderr ≠ "" then pyStrip procT.stderr else "(No stderr)")) := by
  constructor
  · unfold lsExecuteE
    simp only [hplan, hrun]
    unfold lsFormatCompleted
    rw [if_neg hcode, if_pos hmark]
  · unfold treeExecuteE
    simp only [hrunT]
    unfold treeFormatCompleted
    rw [if_neg hcodeT]
    rw [if_neg (by
      intro hor
      rcases hor with h | h
      · exact h127 h
      · rw [hnfT] at h
        cases h)]

/-- C6, witness: the amended classification at concrete completed
processes for ls and tree. -/
theorem C6_classification_witness :
    lsExecuteE (fun _ => Except.ok ⟨2, "", "ls: cannot access 'q': No such file or directory"⟩)
        (some "q") =
      Except.ok ("Error: Directory not found: '" ++ "q" ++ "'") ∧
    treeExecuteE (fun _ => Except.ok ⟨1, "", "tree: q: No such file or directory"⟩)
        (some "q") none =
      Except.ok ("Error executing tree command (Code: " ++ toString (1 : Int) ++ "): " ++
        (if ("tree: q: No such file or directory" : String) ≠ "" then
          pyStrip "tree: q: No such file or directory" else "(No stderr)")) :=
  C6_classification
    (fun _ => Except.ok ⟨2, "", "ls: cannot access 'q': No such file or directory"⟩)
    (some "q") "q" ⟨"ls", ["-lA", "q"], false⟩
    ⟨2, "", "ls: cannot access 'q': No such file or directory"⟩
    (fun _ => Except.ok ⟨1, "", "tree: q: No such file or directory"⟩)
    (some "q") none ⟨1, "", "tree: q: No such file or directory"⟩
    (by decide) rfl (by decide) (by decide) rfl (by decide) (by decide)
    (by decide) (by decide)

/-- C7, counterexample: an uncaught exception inside the ls pipeline is
converted to `"An unexpected error occurred while executing directory
listing: <message>"` — a failure string that is not prefixed with "Error"
and not of the form `"Error: <operation> failed: <message>"`. -/
theorem C7_counterexample :
    lsExecuteE (fun _ => Except.error (PyExc.other "boom")) (some "d") =
      Except.ok "An unexpected error occurred while executing directory listing: boom" ∧
    startsWithError "An unexpected error occurred while executing directory listing: boom" = false :=
  ⟨rfl, by decide⟩

/-- C7, amended: `create_directory` converts every caught exception to the
"Error"-prefixed string `"Error creating directory: <message>"`, and the
non-zero-exit failures of `ls` are "Error"-prefixed; but the top-level
catch-all of `ls` and `tree` returns `"An unexpected error occurred while
executing <operation>: <message>"`, which is not "Error"-prefixed. -/
theorem C7_error_prefix (runL : Runner) (pathL : Option String)
    (targetL : String) (specL : CommandSpec) (m : String)
    (runO : Runner) (pathO : Option String)
    (targetO : String) (specO : CommandSpec) (procO : ExecResult)
    (env : Env) (fs : FS) (e : PyExc) (pc : String)
    (runT : Runner) (pT : Option String) (dT : Option Int) (mT : String)
    (hplanL : lsPlan pathL = Sum.inr (targetL, specL))
    (hrunL : runL specL = Except.error (PyExc.other m))
    (hplanO : lsPlan pathO = Sum.inr (targetO, specO))
    (hrunO : runO specO = Except.ok procO)
    (hcodeO : procO.returncode ≠ 0)
    (hg : hasParentSegment pc = false)
    (hrunT : runT (treePlan pT dT) = Except.error (PyExc.other mT)) :
    lsExecuteE runL pathL =
      Except.ok ("An unexpected error occurred while executing directory listing: " ++ m) ∧
    startsWithError ("An unexpected error occurred while executing directory listing: " ++ m) = false ∧
    lsExecuteE runO pathO = Except.ok (lsFormatCompleted targetO procO) ∧
    startsWithError (lsFormatCompleted targetO procO) = true ∧
    createDirE env fs (some e) pc = Except.ok ("Error creating directory: " ++ e.msg, fs) ∧
    startsWithError ("Error creating directory: " ++ e.msg) = true ∧
    treeExecuteE runT pT dT =
      Except.ok ("An unexpected error occurred while executing tree: " ++ mT) ∧
    startsWithError ("An unexpected error occurred while executing tree: " ++ mT) = false := by
  refine ⟨?_, rfl, ?_, ?_, ?_, rfl, ?_, rfl⟩
  · unfold lsExecuteE
    simp only [hplanL, hrunL]
    rfl
  · unfold lsExecuteE
    simp only [hplanO, hrunO]
  · unfold lsFormatCompleted
    rw [if_neg hcodeO]
    by_cases hm : (pyIn "no such file or directory" (pyLower procO.stderr) ||
        pyIn "cannot find the path" (pyLower procO.stderr)) = true
    · rw [if_pos hm]
      rfl
    · rw [if_neg hm]
      rfl
  · unfold createDirE createDirBody
    rw [if_neg (by rw [hg]; intro h; cases h)]
    cases e <;> rfl
  · unfold treeExecuteE
    simp only [hrunT]
    rfl

/-- C7, witness: the amended error-shape property at concrete inputs for
all four parts (ls catch-all, ls non-zero exit, create_directory exception,
tree catch-all). -/
theorem C7_error_prefix_witness :
    lsExecuteE (fun _ => Except.error (PyExc.other "boom")) (some "d") =
      Except.ok ("An unexpected error occurred while executing directory listing: " ++ "boom") ∧
    startsWithError ("An unexpected error occurred while executing directory listing: " ++ "boom") = false ∧
    lsExecuteE (fun _ => Except.ok ⟨2, "", "bad"⟩) (some "d") =
      Except.ok (lsFormatCompleted "d" ⟨2, "", "bad"⟩) ∧
    startsWithError (lsFormatCompleted "d" ⟨2, "", "bad"⟩) = true ∧
    createDirE ⟨"/w", "/h", []⟩ [] (some (PyExc.osError "denied")) "x" =
      Except.ok ("Error creating directory: " ++ (PyExc.osError "denied").msg, []) ∧
    startsWithError ("Error creating directory: " ++ (PyExc.osError "denied").msg) = true ∧
    treeExecuteE (fun _ => Except.error (PyExc.other "tboom")) (some "q") none =
      Except.ok ("An unexpected error occurred while executing tree: " ++ "tboom") ∧
    startsWithError ("An unexpected error occurred while executing tree: " ++ "tboom") = false :=
  C7_error_prefix
    (fun _ => Except.error (PyExc.other "boom")) (some "d") "d" ⟨"ls", ["-lA", "d"], false⟩ "boom"
    (fun _ => Except.ok ⟨2, "", "bad"⟩) (some "d") "d" ⟨"ls", ["-lA", "d"], false⟩ ⟨2, "", "bad"⟩
    ⟨"/w", "/h", []⟩ [] (PyExc.osError "denied") "x"
    (fun _ => Except.error (PyExc.other "tboom")) (some "q") none "tboom"
    (by decide) rfl (by decide) rfl (by decide) (by decide) rfl

/-- C8: `create_directory` is idempotent — after a successful creation,
invoking it again with the same valid path (now existing as a directory)
returns the "already exists" message, a success-shaped string that is not
"Error"-prefixed, and leaves the filesystem unchanged. -/
theorem C8_idempotent (env : Env) (fs : FS) (p : String)
    (hg : hasParentSegment p = false)
    (hnex : fsPathExists fs (createDirTarget env p) = false) :
    createDirE env fs none p =
      Except.ok ("Successfully created directory: " ++ p,
        makedirs fs (createDirTarget env p)) ∧
    createDirE env (makedirs fs (createDirTarget env p)) none p =
      Except.ok ("Directory already exists: " ++ p,
        makedirs fs (createDirTarget env p)) ∧
    startsWithError ("Directory already exists: " ++ p) = false := by
  have hlk := makedirs_lookup_self fs (createDirTarget env p) hnex
  have hex2 : fsPathExists (makedirs fs (createDirTarget env p)) (createDirTarget env p) = true := by
    unfold fsPathExists
    rw [hlk]
    rfl
  have hdir2 : fsIsDir (makedirs fs (createDirTarget env p)) (createDirTarget env p) = true := by
    unfold fsIsDir
    rw [hlk]
    rfl
  refine ⟨?_, ?_, rfl⟩
  · unfold createDirE createDirBody
    rw [if_neg (by rw [hg]; intro h; cases h)]
    simp only [hnex, Bool.false_eq_true, if_false]
  · unfold createDirE createDirBody
    rw [if_neg (by rw [hg]; intro h; cases h)]
    simp only [hex2, hdir2, if_true]

/-- C8, witness: creating `"d"` from `cwd = "/w"` on an empty filesystem
succeeds, and the repeated call returns "already exists" without changing
the filesystem. -/
theorem C8_idempotent_witness :
    createDirE ⟨"/w", "/h", []⟩ [] none "d" =
      Except.ok ("Successfully created directory: " ++ "d",
        makedirs [] (createDirTarget ⟨"/w", "/h", []⟩ "d")) ∧
    createDirE ⟨"/w", "/h", []⟩ (makedirs [] (createDirTarget ⟨"/w", "/h", []⟩ "d")) none "d" =
      Except.ok ("Directory already exists: " ++ "d",
        makedirs [] (createDirTarget ⟨"/w", "/h", []⟩ "d")) ∧
    startsWithError ("Directory already exists: " ++ "d") = false :=
  C8_idempotent ⟨"/w", "/h", []⟩ [] "d" (by decide) (by decide)

/-- C9: when the resolved target exists but is not a directory,
`create_directory.execute` returns the distinct "not a directory" error
string and performs no filesystem mutation — the returned filesystem is the
input filesystem. -/
theorem C9_not_a_directory (env : Env) (fs : FS) (p : String)
    (hg : hasParentSegment p = false)
    (hfile : fsLookup fs (createDirTarget env p) = some Entry.file) :
    createDirE env fs none p =
      Except.ok ("Error: Path exists but is not a directory: " ++ p, fs) ∧
    startsWithError ("Error: Path exists but is not a directory: " ++ p) = true := by
  have hex : fsPathExists fs (createDirTarget env p) = true := by
    unfold fsPathExists
    rw [hfile]
    rfl
  have hnd : fsIsDir fs (createDirTarget env p) = false := by
    unfold fsIsDir
    rw [hfile]
    rfl
  refine ⟨?_, rfl⟩
  unfold createDirE createDirBody
  rw [if_neg (by rw [hg]; intro h; cases h)]
  simp only [hex, if_true, hnd, Bool.false_eq_true, if_false]

/-- C9, witness: with `/w/d` existing as a file, creating `"d"` from
`cwd = "/w"` returns the "not a directory" error and the filesystem is
unchanged. -/
theorem C9_not_a_directory_witness :
    createDirE ⟨"/w", "/h", []⟩ [("/w/d", Entry.file)] none "d" =
      Except.ok ("Error: Path exists but is not a directory: " ++ "d",
        [("/w/d", Entry.file)]) ∧
    startsWithError ("Error: Path exists but is not a directory: " ++ "d") = true :=
  C9_not_a_directory ⟨"/w", "/h", []⟩ [("/w/d", Entry.file)] "d" (by decide) (by decide)

/-- C10: `create_directory.execute` applies `expanduser` and `abspath`
before any existence check or creation, so a path beginning with the `~`
component resolves under the user's home directory regardless of the
current working directory, and — carrying no `..` segment — it passes the
parent-directory check, so the directory is created under the home
directory. -/
theorem C10_home_expansion (cwd cwd2 home : String) (users : List (String × String))
    (fs : FS) (p : String) (t : List Char)
    (hp : p.data = '~' :: '/' :: t)
    (hhome : pyStartsWith home "/" = true)
    (hg : hasParentSegment p = false)
    (hnex : fsPathExists fs (normpath (rstripSlash home ++ pyDrop p 1)) = false) :
    createDirTarget ⟨cwd, home, users⟩ p = normpath (rstripSlash home ++ pyDrop p 1) ∧
    createDirTarget ⟨cwd, home, users⟩ p = createDirTarget ⟨cwd2, home, users⟩ p ∧
    createDirE ⟨cwd, home, users⟩ fs none p =
      Except.ok ("Successfully created directory: " ++ p,
        makedirs fs (normpath (rstripSlash home ++ pyDrop p 1))) := by
  have c1 := createDirTarget_tilde cwd home users p t hp hhome
  have c2 := createDirTarget_tilde cwd2 home users p t hp hhome
  refine ⟨c1, by rw [c1, c2], ?_⟩
  unfold createDirE createDirBody
  rw [if_neg (by rw [hg]; intro h; cases h)]
  rw [c1]
  simp only [hnex, Bool.false_eq_true, if_false]

/-- C10, witness: `"~/d"` with home `/home/u` resolves to `/home/u/d` from
both working directories `/w` and `/q`, and is created there. -/
theorem C10_home_expansion_witness :
    createDirTarget ⟨"/w", "/home/u", []⟩ "~/d" =
      normpath (rstripSlash "/home/u" ++ pyDrop "~/d" 1) ∧
    createDirTarget ⟨"/w", "/home/u", []⟩ "~/d" =
      createDirTarget ⟨"/q", "/home/u", []⟩ "~/d" ∧
    createDirE ⟨"/w", "/home/u", []⟩ [] none "~/d" =
      Except.ok ("Successfully created directory: " ++ "~/d",
        makedirs [] (normpath (rstripSlash "/home/u" ++ pyDrop "~/d" 1))) :=
  C10_home_expansion "/w" "/q" "/home/u" [] [] "~/d" ['d']
    (by decide) (by decide) (by decide) (by decide)

end GeminiCLI
